import Mathlib

/-!
# Verification of the scylla-rust-driver result-decoding and speculative-execution core

Shallow embedding of:
* `scylla-cql/src/types/deserialize/result.rs` — `RawRowIterator`,
  `TypedRowIterator` (lazy row decoding over a serialized result frame);
* `scylla/src/policies/speculative_execution.rs` — `can_be_ignored` and
  the `execute` scheduling loop, modelled as an explicit event-driven
  state machine.

Bytes are modelled as natural numbers, byte buffers as `List Nat`, and the
cursor-advancing `FrameSlice` as the list of bytes not yet consumed.
-/

namespace Scylla

/-! ## Row decoding pipeline: data model -/

/-- Modelled from the spec: a column's declared type (only its identity
matters to the code under verification; the declared-type language itself
lives outside the analysed sources). -/
inductive ColumnType where
  | Blob
  | Ascii
  | IntType
deriving DecidableEq

/-- A column spec: immutable (name, declared type) pair
(`ColumnSpec` in `frame/response/result.rs`, outside the analysed sources;
modelled from the spec as exactly that pair). -/
structure ColumnSpec where
  name : String
  typ : ColumnType
deriving DecidableEq

/-- Modelled from the spec: a `FrameSlice` is an immutable, cursor-advancing
view over a byte buffer; we represent it by the list of bytes that the
cursor has not yet passed. -/
abbrev FrameSlice := List Nat

/-- Modelled from the spec: reading `count` raw bytes from the slice.
Fails (returning `none`) when fewer than `count` bytes remain; a failed
read leaves the cursor unchanged. -/
def readRawBytes (count : Nat) (s : FrameSlice) : Option (List Nat × FrameSlice) :=
  if count ≤ s.length then some (s.take count, s.drop count) else none

/-- Big-endian interpretation of a byte list as a natural number. -/
def beNat (bs : List Nat) : Nat :=
  bs.foldl (fun a b => a * 256 + b) 0

/-- Reinterpret a 32-bit big-endian value as a signed integer
(two's complement). -/
def intOfBe32 (n : Nat) : Int :=
  if n < 2 ^ 31 then (n : Int) else (n : Int) - 2 ^ 32

/-- Modelled from the spec: read a 4-byte big-endian signed length prefix. -/
def readInt (s : FrameSlice) : Option (Int × FrameSlice) :=
  (readRawBytes 4 s).map (fun p => (intOfBe32 (beNat p.1), p.2))

/-- Modelled from the spec: `FrameSlice::read_cql_bytes` — read one
length-prefixed byte region. A negative length prefix denotes a null/unset
cell (`none` payload); a failed read leaves the cursor unchanged. -/
def readCqlBytes (s : FrameSlice) : Option (Option (List Nat) × FrameSlice) :=
  (readInt s).bind fun lr =>
    if lr.1 < 0 then some (none, lr.2)
    else (readRawBytes lr.1.toNat lr.2).map fun br => (some br.1, br.2)

/-- The error kind raised when skipping a row's raw column fails
(`BuiltinDeserializationErrorKind::RawColumnDeserializationFailed`). -/
inductive BuiltinDeserializationErrorKind where
  | RawColumnDeserializationFailed (column_index : Nat) (column_name : String)
deriving DecidableEq

/-- A deserialization error, carrying its kind (`DeserializationError`). -/
structure DeserializationError where
  kind : BuiltinDeserializationErrorKind
deriving DecidableEq

/-- Embeds `mk_deser_err` from `deserialize/row.rs`: wraps an error kind. -/
def mk_deser_err (k : BuiltinDeserializationErrorKind) : DeserializationError :=
  ⟨k⟩

/-- A `ColumnIterator`: a snapshot of the column specs and of the frame
slice positioned at the start of one row (`ColumnIterator::new`). -/
structure ColumnIterator where
  specs : List ColumnSpec
  slice : FrameSlice
deriving DecidableEq

/-- Embeds `ColumnIterator::new`. -/
def ColumnIterator.new (specs : List ColumnSpec) (slice : FrameSlice) : ColumnIterator :=
  ⟨specs, slice⟩

/-- The skip walk of `RawRowIterator::next`: for each `(column_index, spec)`
in `specs` (with `i` the index of the first entry), read and discard one
length-prefixed region. On the first structural failure it stops, reporting
the failing column's index and name together with the cursor state at the
failure (prior columns consumed, the failing read not committed). -/
def skipColumns : List ColumnSpec → Nat → FrameSlice →
    Except (Nat × String × FrameSlice) FrameSlice
  | [], _, s => .ok s
  | spec :: rest, i, s =>
    match readCqlBytes s with
    | none => .error (i, spec.name, s)
    | some (_, s2) => skipColumns rest (i + 1) s2

/-- The `RawRowIterator` state: (specs reference, remaining-row counter, frame slice). -/
structure RawRowIterator where
  specs : List ColumnSpec
  remaining : Nat
  slice : FrameSlice
deriving DecidableEq

/-- Embeds `RawRowIterator::new`. -/
def RawRowIterator.new (remaining : Nat) (specs : List ColumnSpec)
    (slice : FrameSlice) : RawRowIterator :=
  ⟨specs, remaining, slice⟩

/-- The item type of `RawRowIterator`:
`Result<ColumnIterator, DeserializationError>`. -/
abbrev RowItem := Except DeserializationError ColumnIterator

/-- Embeds `RawRowIterator::next` (`Iterator` impl). `self.remaining =
self.remaining.checked_sub(1)?` is rendered by the match on `remaining`:
at `0` the checked subtraction fails and the call returns `none` leaving
the state untouched. Otherwise a `ColumnIterator` snapshot is taken at the
current cursor and the row is skipped manually; a structural failure in
the skip walk yields an error item carrying the failing column's index
and name. -/
def RawRowIterator.next (it : RawRowIterator) : Option RowItem × RawRowIterator :=
  match it.remaining with
  | 0 => (none, it)
  | r + 1 =>
    let iter := ColumnIterator.new it.specs it.slice
    match skipColumns it.specs 0 it.slice with
    | .error (i, nm, s) =>
      (some (.error (mk_deser_err (.RawColumnDeserializationFailed i nm))),
        ⟨it.specs, r, s⟩)
    | .ok s2 => (some (.ok iter), ⟨it.specs, r, s2⟩)

/-- Embeds `RawRowIterator::size_hint`. -/
def RawRowIterator.size_hint (it : RawRowIterator) : Nat × Option Nat :=
  (it.remaining, some it.remaining)

/-- Drive a `RawRowIterator` by repeated calls to `next`, collecting the
items produced, for at most `fuel` calls. -/
def runIter : Nat → RawRowIterator → List RowItem
  | 0, _ => []
  | fuel + 1, it =>
    match it.next with
    | (none, _) => []
    | (some x, it2) => x :: runIter fuel it2

/-- All items a `RawRowIterator` will ever produce (`remaining` calls
always suffice, as proved below). -/
def RawRowIterator.toList (it : RawRowIterator) : List RowItem :=
  runIter it.remaining it

/-! ## Serialized payloads

Well-formed serialized cells and rows, mirroring the framing read back by
`readCqlBytes` (length-prefixed regions, `-1` prefix for a null cell),
as produced by the frame serializer (`serialize_cells` in the tests). -/

/-- The 4-byte big-endian encoding of a 32-bit value. -/
def int32be (n : Nat) : List Nat :=
  [n / 2 ^ 24 % 256, n / 2 ^ 16 % 256, n / 2 ^ 8 % 256, n % 256]

/-- One serialized cell: `[0xff, 0xff, 0xff, 0xff]` (length `-1`) for a
null cell, otherwise the length prefix followed by the payload bytes. -/
def serializeCell : Option (List Nat) → List Nat
  | none => [255, 255, 255, 255]
  | some bs => int32be bs.length ++ bs

/-- One serialized row: its cells back to back. -/
def serializeRow : List (Option (List Nat)) → List Nat
  | [] => []
  | c :: cs => serializeCell c ++ serializeRow cs

/-- Serialized rows back to back. -/
def serializeRows : List (List (Option (List Nat))) → List Nat
  | [] => []
  | row :: rows => serializeRow row ++ serializeRows rows

/-- A cell payload small enough for its length to fit the positive range
of the 32-bit signed length prefix. -/
def cellOk : Option (List Nat) → Bool
  | none => true
  | some bs => decide (bs.length < 2 ^ 31)

/-- Whether a produced row item is a successful row. -/
def isOkItem : RowItem → Bool
  | .ok _ => true
  | .error _ => false

/-! ## Typed rows -/

/-- A type-check error (`TypeCheckError`), carrying a message. -/
structure TypeCheckError where
  msg : String
deriving DecidableEq

/-- The `DeserializeRow` trait: a row type `R` supplies a one-time
compatibility check against the column specs and a per-row
deserialization routine consuming a row's `ColumnIterator`. -/
structure DeserializeRow (R : Type) where
  type_check : List ColumnSpec → Except TypeCheckError Unit
  deserialize : ColumnIterator → Except DeserializationError R

/-- The `TypedRowIterator` state: wraps a `RawRowIterator`; its existence after
construction proves the one-time type check already passed. -/
structure TypedRowIterator (R : Type) where
  inner : RawRowIterator

/-- Embeds `TypedRowIterator::new`: calls `R::type_check` on the raw iterator's
specs and fails if the type check fails; on success wraps the raw
iterator. -/
def TypedRowIterator.new {R : Type} (inst : DeserializeRow R)
    (raw : RawRowIterator) : Except TypeCheckError (TypedRowIterator R) :=
  match inst.type_check raw.specs with
  | .error e => .error e
  | .ok _ => .ok ⟨raw⟩

/-- Embeds `TypedRowIterator::next` (`Iterator` impl): takes the inner raw item
and feeds it through `R::deserialize` (`raw.and_then(R::deserialize)`),
passing errors through unchanged. -/
def TypedRowIterator.next {R : Type} (inst : DeserializeRow R)
    (it : TypedRowIterator R) :
    Option (Except DeserializationError R) × TypedRowIterator R :=
  let p := it.inner.next
  (p.1.map fun raw => raw.bind inst.deserialize, ⟨p.2⟩)

/-- Embeds `TypedRowIterator::size_hint`: delegates to the inner iterator. -/
def TypedRowIterator.size_hint {R : Type} (it : TypedRowIterator R) :
    Nat × Option Nat :=
  it.inner.size_hint

/-- Drive a `TypedRowIterator` by repeated calls to `next`, collecting the
items produced, for at most `fuel` calls. -/
def runTyped {R : Type} (inst : DeserializeRow R) :
    Nat → TypedRowIterator R → List (Except DeserializationError R)
  | 0, _ => []
  | fuel + 1, it =>
    match TypedRowIterator.next inst it with
    | (none, _) => []
    | (some x, it2) => x :: runTyped inst fuel it2

/-! ## Speculative execution: error taxonomy and classification -/

/-- Modelled from the spec: the cluster node that handled and answered a
given attempt (`Coordinator`, outside the analysed sources); only its
identity matters here. -/
structure Coordinator where
  id : Nat
deriving DecidableEq

/-- Modelled from the spec: a database-reported error (`DbError`, outside
the analysed sources), represented by its own speculative-retry-safety
classification — the boolean its `can_speculative_retry` method returns. -/
structure DbErrorValue where
  speculativeRetrySafe : Bool
deriving DecidableEq

/-- Modelled from the spec: `DbError::can_speculative_retry`, the error's
own classification of whether a speculative retry is safe. -/
def DbErrorValue.can_speculative_retry (e : DbErrorValue) : Bool :=
  e.speculativeRetrySafe

/-- The `RequestAttemptError` taxonomy: the closed set of failure causes of one
attempt on one node (variants as in the driver's error module; payloads
irrelevant to classification are omitted, the `DbError` payload keeps its
retry-safety classification). -/
inductive RequestAttemptError where
  | SerializationError
  | CqlRequestSerialization
  | BodyExtensionsParseError
  | CqlResultParseError
  | CqlErrorParseError
  | UnexpectedResponse
  | RepreparedIdChanged
  | RepreparedIdMissingInBatch
  | NonfinishedPagingState
  | BrokenConnectionError
  | UnableToAllocStreamId
  | DbError (e : DbErrorValue)
deriving DecidableEq

/-- The `RequestError` taxonomy: the request-level failure causes. -/
inductive RequestError where
  | EmptyPlan
  | RequestTimeout
  | ConnectionPoolError
  | LastAttemptError (e : RequestAttemptError)
deriving DecidableEq

/-- The static `EMPTY_PLAN_ERROR` constant. -/
def EMPTY_PLAN_ERROR : RequestError := RequestError.EmptyPlan

/-- Embeds `can_be_ignored`: decides whether one attempt's outcome may be ignored
because a different node might reasonably succeed where this one failed.
Exhaustive match over the closed taxonomy, no wildcard arm, exactly as in
the source. -/
def can_be_ignored {ResT : Type} (result : Except RequestError ResT) : Bool :=
  match result with
  | .ok _ => false
  | .error e =>
    match e with
    | .EmptyPlan => false
    | .RequestTimeout => false
    | .ConnectionPoolError => true
    | .LastAttemptError e =>
      match e with
      | .SerializationError
      | .CqlRequestSerialization
      | .BodyExtensionsParseError
      | .CqlResultParseError
      | .CqlErrorParseError
      | .UnexpectedResponse
      | .RepreparedIdChanged
      | .RepreparedIdMissingInBatch
      | .NonfinishedPagingState => false
      | .BrokenConnectionError
      | .UnableToAllocStreamId => true
      | .DbError db_error => db_error.can_speculative_retry

/-! ## Speculative execution: the `execute` wait loop as a state machine

The async wait loop of `execute` is modelled as an explicit state machine:
a state records the loop's local variables, and one `step` consumes the
event that won the `select` (the timer firing, or some in-flight task
completing with its result). `calls` records the boolean argument of every
`query_runner_generator` invocation made so far, in order. -/

/-- The result of one attempt:
`Result<(ResT, Coordinator), RequestError>`. -/
abbrev AttemptResult (ResT : Type) := Except RequestError (ResT × Coordinator)

/-- The state of the `execute` wait loop. `sleep = some d` means the timer
is armed to fire after duration `d`; `sleep = none` means the fused timer
is terminated and can no longer fire. -/
structure SchedState (ResT : Type) where
  retry_interval : Nat
  retries_remaining : Nat
  liveTasks : Nat
  sleep : Option Nat
  last_error : Option (AttemptResult ResT)
  calls : List Bool

/-- An observable event of the wait loop. -/
inductive SpecEvent (ResT : Type) where
  | timerFired
  | taskCompleted (res : Option (AttemptResult ResT))

/-- The outcome of one loop iteration: keep looping in a new state, or
return a result to the caller. -/
inductive StepOut (ResT : Type) where
  | running (s : SchedState ResT)
  | returned (r : AttemptResult ResT)

/-- The check performed after a task completes: when no task remains in
flight and no retries remain, return the remembered last error, or the
static empty-plan error if none was recorded. -/
def finishCheck {ResT : Type} (s : SchedState ResT) : StepOut ResT :=
  if s.liveTasks = 0 ∧ s.retries_remaining = 0 then
    .returned (s.last_error.getD (.error EMPTY_PLAN_ERROR))
  else .running s

/-- One iteration of the `execute` wait loop. Timer branch: if retries
remain, push one speculative attempt (`generator(true)`, recorded in
`calls`), decrement the countdown and rearm the timer with the same
interval; otherwise the fused timer is now terminated and nothing else
changes. Task branch: a task leaves the in-flight set; a `None` result is
ignored; a non-ignorable result is returned immediately; an ignorable
result is remembered as the last error; in the latter two non-returning
cases the loop then returns the remembered error when idle (see
`finishCheck`). -/
def step {ResT : Type} (s : SchedState ResT) : SpecEvent ResT → StepOut ResT
  | .timerFired =>
    if s.retries_remaining > 0 then
      .running { s with
        liveTasks := s.liveTasks + 1,
        retries_remaining := s.retries_remaining - 1,
        sleep := some s.retry_interval,
        calls := s.calls ++ [true] }
    else .running { s with sleep := none }
  | .taskCompleted res =>
    let s1 := { s with liveTasks := s.liveTasks - 1 }
    match res with
    | none => finishCheck s1
    | some r =>
      if can_be_ignored r then finishCheck { s1 with last_error := some r }
      else .returned r

/-- The state of `execute` at entry to the wait loop: the original attempt
(`generator(false)`) is already in flight, the retry countdown holds the
policy's `max_retry_count`, and the timer is armed with the policy's
`retry_interval`. -/
def initState (ResT : Type) (max_retry_count retry_interval : Nat) :
    SchedState ResT :=
  { retry_interval := retry_interval,
    retries_remaining := max_retry_count,
    liveTasks := 1,
    sleep := some retry_interval,
    last_error := none,
    calls := [false] }

/-- Run the wait loop over a sequence of events, stopping at the first
iteration that returns. -/
def runEvents {ResT : Type} (s : SchedState ResT) :
    List (SpecEvent ResT) → StepOut ResT
  | [] => .running s
  | e :: es =>
    match step s e with
    | .returned r => .returned r
    | .running s2 => runEvents s2 es

/-- An event possible in a given state: the timer can fire only while
armed, a task can complete only while some task is in flight. -/
def validEvent {ResT : Type} (s : SchedState ResT) : SpecEvent ResT → Bool
  | .timerFired => s.sleep.isSome
  | .taskCompleted _ => decide (0 < s.liveTasks)

/-- A sequence of events each possible in the state it meets, with no
event after the loop has returned. -/
def validRun {ResT : Type} (s : SchedState ResT) :
    List (SpecEvent ResT) → Bool
  | [] => true
  | e :: es =>
    validEvent s e &&
      match step s e with
      | .returned _ => es.isEmpty
      | .running s2 => validRun s2 es

/-- The measure named by the specification: live in-flight tasks plus
remaining retries. -/
def claimedMeasure {ResT : Type} (s : SchedState ResT) : Nat :=
  s.liveTasks + s.retries_remaining

/-- A measure that does strictly decrease on every possible non-returning
iteration: live tasks + 2 · remaining retries + 1 when the timer is
armed. -/
def loopMeasure {ResT : Type} (s : SchedState ResT) : Nat :=
  s.liveTasks + 2 * s.retries_remaining + (if s.sleep.isSome then 1 else 0)

/-- Left-biased choice on options. -/
def orOpt {α : Type _} : Option α → Option α → Option α
  | some a, _ => some a
  | none, b => b

/-- The result carried by a task-completion event, if any. -/
def extractObserved {ResT : Type} : SpecEvent ResT → Option (AttemptResult ResT)
  | .taskCompleted (some r) => some r
  | .taskCompleted none => none
  | .timerFired => none

/-- The last attempt result observed across a sequence of events. -/
def lastObserved {ResT : Type} :
    List (SpecEvent ResT) → Option (AttemptResult ResT)
  | [] => none
  | e :: es => orOpt (lastObserved es) (extractObserved e)

/-- Whether an event reports no terminal result or an ignorable one. -/
def eventIgnorable {ResT : Type} : SpecEvent ResT → Bool
  | .timerFired => true
  | .taskCompleted none => true
  | .taskCompleted (some r) => can_be_ignored r

/-- Every task completion in the sequence is either empty (`None`) or an
ignorable result. -/
def allIgnorable {ResT : Type} : List (SpecEvent ResT) → Bool
  | [] => true
  | e :: es => eventIgnorable e && allIgnorable es

/-! ## Basic lemmas about `next` -/

theorem RawRowIterator.next_zero (it : RawRowIterator) (h : it.remaining = 0) :
    it.next = (none, it) := by
  unfold RawRowIterator.next
  rw [h]

theorem RawRowIterator.next_succ_remaining (it : RawRowIterator) (r : Nat)
    (h : it.remaining = r + 1) :
    ((it.next).2).remaining = r ∧ (it.next).1.isSome := by
  unfold RawRowIterator.next
  rw [h]
  cases hsk : skipColumns it.specs 0 it.slice with
  | error e =>
    obtain ⟨i, nm, s⟩ := e
    simp
  | ok s2 => simp

theorem runIter_length (fuel : Nat) :
    ∀ it : RawRowIterator, (runIter fuel it).length = min fuel it.remaining := by
  induction fuel with
  | zero => intro it; simp [runIter]
  | succ n ih =>
    intro it
    cases hr : it.remaining with
    | zero =>
      rw [runIter, RawRowIterator.next_zero it hr]
      simp
    | succ r =>
      rw [runIter]
      cases hnext : it.next with
      | mk o it2 =>
        have h2 := RawRowIterator.next_succ_remaining it r hr
        rw [hnext] at h2
        cases o with
        | none => simp at h2
        | some x =>
          simp only
          rw [List.length_cons, ih it2]
          have : it2.remaining = r := h2.1
          rw [this]
          omega

/-- C5: for every reachable state of a `RawRowIterator` — including states
reached after a structural decode error — `size_hint` returns exactly
`(remaining, some remaining)`, and the iterator yields exactly `remaining`
further items (any fuel of at least `remaining` calls produces exactly
`remaining` items). -/
theorem claim_C5 (it : RawRowIterator) (fuel : Nat) (h : it.remaining ≤ fuel) :
    it.size_hint = (it.remaining, some it.remaining) ∧
    it.toList.length = it.remaining ∧
    (runIter fuel it).length = it.remaining := by
  refine ⟨rfl, ?_, ?_⟩
  · rw [RawRowIterator.toList, runIter_length]
    omega
  · rw [runIter_length]
    omega

theorem claim_C5_witness :
    (RawRowIterator.new 2 [⟨"b1", ColumnType.Blob⟩] []).size_hint = (2, some 2) ∧
    (RawRowIterator.new 2 [⟨"b1", ColumnType.Blob⟩] []).toList.length = 2 ∧
    (runIter 5 (RawRowIterator.new 2 [⟨"b1", ColumnType.Blob⟩] [])).length = 2 :=
  claim_C5 (RawRowIterator.new 2 [⟨"b1", ColumnType.Blob⟩] []) 5 (by decide)

/-- C6: every call to `next` that produces an item decreases the remaining
counter by exactly one, and once the counter is zero `next` returns no item
and leaves the iterator unchanged, even if unconsumed bytes remain in the
frame slice. -/
theorem claim_C6 (it1 : RawRowIterator) (x : RowItem) (it2 : RawRowIterator)
    (h1 : it1.next = (some x, it2))
    (itz : RawRowIterator) (hz : itz.remaining = 0) :
    it1.remaining = it2.remaining + 1 ∧ itz.next = (none, itz) := by
  constructor
  · cases hr : it1.remaining with
    | zero =>
      rw [RawRowIterator.next_zero it1 hr] at h1
      exact absurd (congrArg Prod.fst h1) (by simp)
    | succ r =>
      have h2 := RawRowIterator.next_succ_remaining it1 r hr
      rw [h1] at h2
      have : it2.remaining = r := h2.1
      omega
  · exact RawRowIterator.next_zero itz hz

theorem claim_C6_witness :
    (RawRowIterator.new 1 [⟨"b1", ColumnType.Blob⟩] []).remaining
      = (RawRowIterator.new 0 [⟨"b1", ColumnType.Blob⟩] []).remaining + 1 ∧
    (RawRowIterator.new 0 [⟨"b1", ColumnType.Blob⟩] [1, 2, 3]).next
      = (none, RawRowIterator.new 0 [⟨"b1", ColumnType.Blob⟩] [1, 2, 3]) :=
  claim_C6 (RawRowIterator.new 1 [⟨"b1", ColumnType.Blob⟩] [])
    (.error (mk_deser_err (.RawColumnDeserializationFailed 0 "b1")))
    (RawRowIterator.new 0 [⟨"b1", ColumnType.Blob⟩] []) rfl
    (RawRowIterator.new 0 [⟨"b1", ColumnType.Blob⟩] [1, 2, 3]) rfl

/-- C10: calling `next` on a `RawRowIterator` whose remaining counter is
zero is total and effect-free: the decrement is a checked subtraction
(rendered as the pattern match on `remaining`, so no underflow is
possible), `none` is returned, and the remaining counter, specs and slice
cursor are all left unchanged, for every specs and slice state. -/
theorem claim_C10 (it : RawRowIterator) (h : it.remaining = 0) :
    it.next = (none, it) ∧
    ((it.next).2.remaining = it.remaining ∧
      (it.next).2.specs = it.specs ∧ (it.next).2.slice = it.slice) := by
  have hz := RawRowIterator.next_zero it h
  rw [hz]
  exact ⟨rfl, rfl, rfl, rfl⟩

theorem claim_C10_witness :
    (RawRowIterator.new 0 [⟨"b1", ColumnType.Blob⟩] [9, 9]).next
      = (none, RawRowIterator.new 0 [⟨"b1", ColumnType.Blob⟩] [9, 9]) :=
  (claim_C10 (RawRowIterator.new 0 [⟨"b1", ColumnType.Blob⟩] [9, 9]) rfl).1

/-! ## Reading back serialized payloads -/

theorem beNat_int32be (n : Nat) (h : n < 2 ^ 32) : beNat (int32be n) = n := by
  simp only [int32be, beNat, List.foldl_cons, List.foldl_nil]
  omega

theorem readRawBytes_append (l rest : List Nat) :
    readRawBytes l.length (l ++ rest) = some (l, rest) := by
  unfold readRawBytes
  rw [if_pos (by simp), List.take_left, List.drop_left]

theorem intOfBe32_small (n : Nat) (h : n < 2 ^ 31) : intOfBe32 n = (n : Int) := by
  unfold intOfBe32
  rw [if_pos h]

theorem readInt_append (l rest : List Nat) (h : l.length = 4) :
    readInt (l ++ rest) = some (intOfBe32 (beNat l), rest) := by
  unfold readInt
  rw [← h, readRawBytes_append l rest, Option.map_some']

theorem readCqlBytes_serializeCell (c : Option (List Nat)) (rest : FrameSlice)
    (h : cellOk c = true) :
    readCqlBytes (serializeCell c ++ rest) = some (c, rest) := by
  cases c with
  | none =>
    unfold readCqlBytes
    rw [show serializeCell none ++ rest = [255, 255, 255, 255] ++ rest from rfl]
    rw [readInt_append [255, 255, 255, 255] rest rfl]
    rw [show intOfBe32 (beNat [255, 255, 255, 255]) = -1 from rfl]
    rw [Option.some_bind']
    rfl
  | some bs =>
    have hlen : bs.length < 2 ^ 31 := by simpa [cellOk] using h
    unfold readCqlBytes
    rw [show serializeCell (some bs) ++ rest = int32be bs.length ++ (bs ++ rest) by
          simp [serializeCell]]
    rw [readInt_append (int32be bs.length) (bs ++ rest) rfl]
    rw [beNat_int32be bs.length (by omega)]
    rw [intOfBe32_small bs.length hlen]
    rw [Option.some_bind']
    dsimp only
    rw [if_neg (by omega)]
    rw [Int.toNat_natCast]
    rw [readRawBytes_append bs rest]
    rw [Option.map_some']

theorem skipColumns_serializeRow :
    ∀ (specs : List ColumnSpec) (cells : List (Option (List Nat))) (i : Nat)
      (rest : FrameSlice),
    cells.length = specs.length → (∀ c ∈ cells, cellOk c = true) →
    skipColumns specs i (serializeRow cells ++ rest) = .ok rest := by
  intro specs
  induction specs with
  | nil =>
    intro cells i rest hlen _
    have : cells = [] := List.eq_nil_of_length_eq_zero (by simpa using hlen)
    subst this
    simp [serializeRow, skipColumns]
  | cons sp sps ih =>
    intro cells i rest hlen hok
    cases cells with
    | nil => simp at hlen
    | cons c cs =>
      have hc := readCqlBytes_serializeCell c (serializeRow cs ++ rest)
        (hok c (by simp))
      simp only [serializeRow, List.append_assoc, skipColumns, hc]
      exact ih cs (i + 1) rest (by simpa using hlen)
        (fun x hx => hok x (by simp [hx]))

theorem next_serializeRow (specs : List ColumnSpec)
    (cells : List (Option (List Nat))) (m : Nat) (rest : FrameSlice)
    (hlen : cells.length = specs.length) (hok : ∀ c ∈ cells, cellOk c = true) :
    (RawRowIterator.mk specs (m + 1) (serializeRow cells ++ rest)).next
      = (some (.ok (ColumnIterator.new specs (serializeRow cells ++ rest))),
         ⟨specs, m, rest⟩) := by
  unfold RawRowIterator.next
  simp only
  rw [skipColumns_serializeRow specs cells 0 rest hlen hok]

theorem next_empty_slice (sp : ColumnSpec) (sps : List ColumnSpec) (m : Nat) :
    (RawRowIterator.mk (sp :: sps) (m + 1) []).next
      = (some (.error (mk_deser_err (.RawColumnDeserializationFailed 0 sp.name))),
         ⟨sp :: sps, m, []⟩) := by
  rfl

theorem runIter_empty_slice (sp : ColumnSpec) (sps : List ColumnSpec) :
    ∀ n : Nat, runIter n ⟨sp :: sps, n, []⟩
      = List.replicate n
          (.error (mk_deser_err (.RawColumnDeserializationFailed 0 sp.name))) := by
  intro n
  induction n with
  | zero => simp [runIter]
  | succ m ih =>
    rw [runIter, next_empty_slice sp sps m]
    simp only
    rw [ih, List.replicate_succ]

theorem runIter_truncated (sp : ColumnSpec) (sps : List ColumnSpec) :
    ∀ (rows : List (List (Option (List Nat)))) (N : Nat),
    rows.length < N →
    (∀ row ∈ rows, row.length = (sp :: sps).length ∧ ∀ c ∈ row, cellOk c = true) →
    runIter N ⟨sp :: sps, N, serializeRows rows⟩
      = (List.range rows.length).map
          (fun j => Except.ok
            (ColumnIterator.new (sp :: sps) (serializeRows (rows.drop j))))
        ++ List.replicate (N - rows.length)
            (.error (mk_deser_err (.RawColumnDeserializationFailed 0 sp.name))) := by
  intro rows
  induction rows with
  | nil =>
    intro N hN _
    simpa [serializeRows] using runIter_empty_slice sp sps N
  | cons row rows ih =>
    intro N hN hok
    cases N with
    | zero => omega
    | succ M =>
      rw [show serializeRows (row :: rows) = serializeRow row ++ serializeRows rows
            from rfl]
      rw [runIter, next_serializeRow (sp :: sps) row M (serializeRows rows)
            (hok row (by simp)).1 (hok row (by simp)).2]
      simp only
      rw [ih M (by simpa using hN) (fun r hr => hok r (by simp [hr]))]
      rw [List.length_cons, List.range_succ_eq_map, List.map_cons, List.map_map]
      simp only [List.cons_append, Nat.succ_sub_succ]
      rfl

/-- C1 fails as stated: over a payload holding exactly one well-formed row
but a declared count of three, the iterator yields one successful row and
then TWO error items (one per missing row), not "exactly one error item". -/
theorem claim_C1_counterexample :
    ((RawRowIterator.new 3 [⟨"b1", ColumnType.Blob⟩]
        (serializeCell (some [42]))).toList.countP (fun x => !isOkItem x)) = 2 ∧
    ¬ ((RawRowIterator.new 3 [⟨"b1", ColumnType.Blob⟩]
        (serializeCell (some [42]))).toList.countP (fun x => !isOkItem x)) = 1 ∧
    ((RawRowIterator.new 3 [⟨"b1", ColumnType.Blob⟩]
        (serializeCell (some [42]))).toList.countP isOkItem) = 1 ∧
    ((RawRowIterator.new 3 [⟨"b1", ColumnType.Blob⟩]
        (serializeCell (some [42]))).toList).length = 3 :=
  ⟨by decide, by decide, by decide, by decide⟩

/-- C1 (amended): over a serialized payload holding `rows.length < N`
well-formed rows and nothing else, the iterator yields the successful rows
in order until the data is exhausted, then one error item for each of the
remaining declared rows; the total number of items equals `N` (and hence
never exceeds `N`). -/
theorem claim_C1_amended (sp : ColumnSpec) (sps : List ColumnSpec)
    (rows : List (List (Option (List Nat)))) (N : Nat)
    (hlt : rows.length < N)
    (hrows : ∀ row ∈ rows,
      row.length = (sp :: sps).length ∧ ∀ c ∈ row, cellOk c = true) :
    (RawRowIterator.new N (sp :: sps) (serializeRows rows)).toList
      = (List.range rows.length).map
          (fun j => Except.ok
            (ColumnIterator.new (sp :: sps) (serializeRows (rows.drop j))))
        ++ List.replicate (N - rows.length)
            (Except.error (mk_deser_err (.RawColumnDeserializationFailed 0 sp.name))) ∧
    (RawRowIterator.new N (sp :: sps) (serializeRows rows)).toList.length = N := by
  have h := runIter_truncated sp sps rows N hlt hrows
  have htl : (RawRowIterator.new N (sp :: sps) (serializeRows rows)).toList
      = runIter N ⟨sp :: sps, N, serializeRows rows⟩ := rfl
  rw [htl, h]
  refine ⟨rfl, ?_⟩
  simp only [List.length_append, List.length_map, List.length_range,
    List.length_replicate]
  omega

theorem claim_C1_amended_witness :
    (RawRowIterator.new 2 [⟨"b1", ColumnType.Blob⟩]
        (serializeRows [[some [7]]])).toList
      = (List.range 1).map
          (fun j => Except.ok
            (ColumnIterator.new [⟨"b1", ColumnType.Blob⟩]
              (serializeRows (([[some [7]]] : List (List (Option (List Nat)))).drop j))))
        ++ List.replicate 1
            (Except.error (mk_deser_err (.RawColumnDeserializationFailed 0 "b1"))) ∧
    (RawRowIterator.new 2 [⟨"b1", ColumnType.Blob⟩]
        (serializeRows [[some [7]]])).toList.length = 2 :=
  claim_C1_amended ⟨"b1", ColumnType.Blob⟩ [] [[some [7]]] 2
    (by decide) (by decide)

/-- C7: whenever the type check of row type `R` succeeds (so
`TypedRowIterator::new` returns a typed iterator), the sequence of items
the typed iterator produces equals the sequence the underlying
`RawRowIterator` produces with `R`'s per-row deserialization routine
applied to each successful raw row, errors passed through unchanged. -/
theorem claim_C7 {R : Type} (inst : DeserializeRow R) (raw : RawRowIterator)
    (tit : TypedRowIterator R)
    (hnew : TypedRowIterator.new inst raw = .ok tit) (fuel : Nat) :
    runTyped inst fuel tit
      = (runIter fuel raw).map (fun item => item.bind inst.deserialize) := by
  have hinner : tit = ⟨raw⟩ := by
    unfold TypedRowIterator.new at hnew
    cases h : inst.type_check raw.specs with
    | error e => rw [h] at hnew; cases hnew
    | ok u =>
      rw [h] at hnew
      cases hnew
      rfl
  subst hinner
  clear hnew
  induction fuel generalizing raw with
  | zero => rfl
  | succ n ih =>
    rw [runTyped, runIter]
    cases hr : raw.next with
    | mk o it2 =>
      cases o with
      | none => simp [TypedRowIterator.next, hr]
      | some x => simp [TypedRowIterator.next, hr, ih]

theorem claim_C7_witness :
    TypedRowIterator.new
        (⟨fun _ => Except.ok (), fun ci => Except.ok ci.slice⟩ :
          DeserializeRow FrameSlice)
        (RawRowIterator.new 1 [⟨"b1", ColumnType.Blob⟩] (serializeCell (some [5])))
      = Except.ok
          ⟨RawRowIterator.new 1 [⟨"b1", ColumnType.Blob⟩]
            (serializeCell (some [5]))⟩ ∧
    runTyped
        (⟨fun _ => Except.ok (), fun ci => Except.ok ci.slice⟩ :
          DeserializeRow FrameSlice) 3
        ⟨RawRowIterator.new 1 [⟨"b1", ColumnType.Blob⟩] (serializeCell (some [5]))⟩
      = (runIter 3
          (RawRowIterator.new 1 [⟨"b1", ColumnType.Blob⟩]
            (serializeCell (some [5])))).map
          (fun item => item.bind
            (⟨fun _ => Except.ok (), fun ci => Except.ok ci.slice⟩ :
              DeserializeRow FrameSlice).deserialize) :=
  ⟨rfl,
    claim_C7
      (⟨fun _ => Except.ok (), fun ci => Except.ok ci.slice⟩ :
        DeserializeRow FrameSlice)
      (RawRowIterator.new 1 [⟨"b1", ColumnType.Blob⟩] (serializeCell (some [5])))
      ⟨RawRowIterator.new 1 [⟨"b1", ColumnType.Blob⟩] (serializeCell (some [5]))⟩
      rfl 3⟩

/-- C2: `can_be_ignored` returns false on success, on `EmptyPlan` and on a
client-observed request timeout; true on a connection-pool error; and for
a last-attempt error, true exactly for broken-connection and
stream-id-exhaustion, false for all serialization / response-parsing /
protocol-bookkeeping causes, and for a database-reported error the value
of that error's own speculative-retry-safety classification. -/
theorem claim_C2 (ResT : Type) (v : ResT) (db : DbErrorValue) :
    can_be_ignored (Except.ok v) = false ∧
    can_be_ignored (Except.error RequestError.EmptyPlan : Except RequestError ResT)
      = false ∧
    can_be_ignored (Except.error RequestError.RequestTimeout : Except RequestError ResT)
      = false ∧
    can_be_ignored
        (Except.error RequestError.ConnectionPoolError : Except RequestError ResT)
      = true ∧
    can_be_ignored (Except.error (RequestError.LastAttemptError
        RequestAttemptError.BrokenConnectionError) : Except RequestError ResT)
      = true ∧
    can_be_ignored (Except.error (RequestError.LastAttemptError
        RequestAttemptError.UnableToAllocStreamId) : Except RequestError ResT)
      = true ∧
    can_be_ignored (Except.error (RequestError.LastAttemptError
        RequestAttemptError.SerializationError) : Except RequestError ResT)
      = false ∧
    can_be_ignored (Except.error (RequestError.LastAttemptError
        RequestAttemptError.CqlRequestSerialization) : Except RequestError ResT)
      = false ∧
    can_be_ignored (Except.error (RequestError.LastAttemptError
        RequestAttemptError.BodyExtensionsParseError) : Except RequestError ResT)
      = false ∧
    can_be_ignored (Except.error (RequestError.LastAttemptError
        RequestAttemptError.CqlResultParseError) : Except RequestError ResT)
      = false ∧
    can_be_ignored (Except.error (RequestError.LastAttemptError
        RequestAttemptError.CqlErrorParseError) : Except RequestError ResT)
      = false ∧
    can_be_ignored (Except.error (RequestError.LastAttemptError
        RequestAttemptError.UnexpectedResponse) : Except RequestError ResT)
      = false ∧
    can_be_ignored (Except.error (RequestError.LastAttemptError
        RequestAttemptError.RepreparedIdChanged) : Except RequestError ResT)
      = false ∧
    can_be_ignored (Except.error (RequestError.LastAttemptError
        RequestAttemptError.RepreparedIdMissingInBatch) : Except RequestError ResT)
      = false ∧
    can_be_ignored (Except.error (RequestError.LastAttemptError
        RequestAttemptError.NonfinishedPagingState) : Except RequestError ResT)
      = false ∧
    can_be_ignored (Except.error (RequestError.LastAttemptError
        (RequestAttemptError.DbError db)) : Except RequestError ResT)
      = db.can_speculative_retry :=
  ⟨rfl, rfl, rfl, rfl, rfl, rfl, rfl, rfl, rfl, rfl, rfl, rfl, rfl, rfl, rfl,
    rfl⟩

/-- C4: whenever an in-flight task completes with a terminal result that
is a success or a non-ignorable error, the wait loop returns that result
immediately, in every state — regardless of how many other attempts are
still pending and of launch order. -/
theorem claim_C4 (ResT : Type) (s : SchedState ResT) (r : AttemptResult ResT)
    (h : can_be_ignored r = false) :
    step s (.taskCompleted (some r)) = .returned r := by
  unfold step
  simp [h]

theorem claim_C4_witness :
    step (initState Unit 3 5)
        (.taskCompleted (some (.error RequestError.RequestTimeout)))
      = .returned (.error RequestError.RequestTimeout) :=
  claim_C4 Unit (initState Unit 3 5) (.error RequestError.RequestTimeout) rfl

/-! ## Step characterizations and inversions -/

theorem orOpt_none {α : Type _} (a : Option α) : orOpt a none = a := by
  cases a <;> rfl

theorem orOpt_some_absorb {α : Type _} (a : Option α) (b : α) (c : Option α) :
    orOpt (orOpt a (some b)) c = orOpt a (some b) := by
  cases a <;> rfl

theorem step_timer_pos {ResT : Type} (s : SchedState ResT)
    (h : 0 < s.retries_remaining) :
    step s .timerFired = .running { s with
      liveTasks := s.liveTasks + 1,
      retries_remaining := s.retries_remaining - 1,
      sleep := some s.retry_interval,
      calls := s.calls ++ [true] } := by
  unfold step
  rw [if_pos h]

theorem step_timer_zero {ResT : Type} (s : SchedState ResT)
    (h : s.retries_remaining = 0) :
    step s .timerFired = .running { s with sleep := none } := by
  unfold step
  rw [if_neg (by omega)]

theorem step_task_none {ResT : Type} (s : SchedState ResT) :
    step s (.taskCompleted none)
      = finishCheck { s with liveTasks := s.liveTasks - 1 } :=
  rfl

theorem step_task_some_ign {ResT : Type} (s : SchedState ResT)
    (r : AttemptResult ResT) (h : can_be_ignored r = true) :
    step s (.taskCompleted (some r))
      = finishCheck { s with
          liveTasks := s.liveTasks - 1, last_error := some r } := by
  have hd : step s (.taskCompleted (some r))
      = if can_be_ignored r = true then
          finishCheck { s with
            liveTasks := s.liveTasks - 1, last_error := some r }
        else .returned r := rfl
  rw [hd, if_pos h]

theorem finishCheck_returned_inv {ResT : Type} (s : SchedState ResT)
    (r : AttemptResult ResT) (h : finishCheck s = .returned r) :
    r = s.last_error.getD (.error EMPTY_PLAN_ERROR) ∧
    s.liveTasks = 0 ∧ s.retries_remaining = 0 := by
  by_cases hc : s.liveTasks = 0 ∧ s.retries_remaining = 0
  · unfold finishCheck at h
    rw [if_pos hc] at h
    cases h
    exact ⟨rfl, hc⟩
  · unfold finishCheck at h
    rw [if_neg hc] at h
    cases h

theorem finishCheck_running_inv {ResT : Type} (s s2 : SchedState ResT)
    (h : finishCheck s = .running s2) : s2 = s := by
  by_cases hc : s.liveTasks = 0 ∧ s.retries_remaining = 0
  · unfold finishCheck at h
    rw [if_pos hc] at h
    cases h
  · unfold finishCheck at h
    rw [if_neg hc] at h
    cases h
    rfl

theorem step_timer_ne_returned {ResT : Type} (s : SchedState ResT)
    (r : AttemptResult ResT) : ¬ step s .timerFired = .returned r := by
  by_cases hr : 0 < s.retries_remaining
  · rw [step_timer_pos s hr]
    intro h
    exact StepOut.noConfusion h
  · rw [step_timer_zero s (by omega)]
    intro h
    exact StepOut.noConfusion h

theorem step_timer_last_error {ResT : Type} (s s2 : SchedState ResT)
    (h : step s .timerFired = .running s2) : s2.last_error = s.last_error := by
  by_cases hr : 0 < s.retries_remaining
  · rw [step_timer_pos s hr] at h
    cases h
    rfl
  · rw [step_timer_zero s (by omega)] at h
    cases h
    rfl

theorem runEvents_cons_returned {ResT : Type} (s : SchedState ResT)
    (e : SpecEvent ResT) (es : List (SpecEvent ResT)) (r : AttemptResult ResT)
    (h : step s e = .returned r) : runEvents s (e :: es) = .returned r := by
  rw [runEvents, h]

theorem runEvents_cons_running {ResT : Type} (s : SchedState ResT)
    (e : SpecEvent ResT) (es : List (SpecEvent ResT)) (s2 : SchedState ResT)
    (h : step s e = .running s2) : runEvents s (e :: es) = runEvents s2 es := by
  rw [runEvents, h]

/-! ## The all-ignorable run -/

theorem runEvents_all_ignorable {ResT : Type} :
    ∀ (events : List (SpecEvent ResT)) (s : SchedState ResT)
      (res : AttemptResult ResT),
    allIgnorable events = true →
    (∀ n, n < events.length → ∃ s2, runEvents s (events.take n) = .running s2) →
    runEvents s events = .returned res →
    res = (orOpt (lastObserved events) s.last_error).getD
      (.error EMPTY_PLAN_ERROR) := by
  intro events
  induction events with
  | nil =>
    intro s res _ _ hret
    exact StepOut.noConfusion hret
  | cons e es ih =>
    intro s res hign hpre hret
    rw [allIgnorable, Bool.and_eq_true] at hign
    obtain ⟨he, hes⟩ := hign
    cases hstep : step s e with
    | returned r =>
      rw [runEvents_cons_returned s e es r hstep] at hret
      cases hret
      have hes_nil : es = [] := by
        cases es with
        | nil => rfl
        | cons e2 es2 =>
          obtain ⟨s2, hs2⟩ := hpre 1 (by simp)
          rw [show (e :: e2 :: es2).take 1 = [e] from rfl] at hs2
          rw [runEvents_cons_returned s e [] res hstep] at hs2
          exact StepOut.noConfusion hs2
      subst hes_nil
      cases e with
      | timerFired => exact absurd hstep (step_timer_ne_returned s res)
      | taskCompleted o =>
        cases o with
        | none =>
          rw [step_task_none s] at hstep
          obtain ⟨hr, _, _⟩ := finishCheck_returned_inv _ _ hstep
          rw [hr]
          rfl
        | some r0 =>
          have hr0 : can_be_ignored r0 = true := he
          rw [step_task_some_ign s r0 hr0] at hstep
          obtain ⟨hr, _, _⟩ := finishCheck_returned_inv _ _ hstep
          rw [hr]
          rfl
    | running s2 =>
      rw [runEvents_cons_running s e es s2 hstep] at hret
      have hpre2 : ∀ n, n < es.length →
          ∃ s3, runEvents s2 (es.take n) = .running s3 := by
        intro n hn
        obtain ⟨s3, hs3⟩ := hpre (n + 1) (by simpa using Nat.succ_lt_succ hn)
        rw [List.take_succ_cons, runEvents_cons_running s e _ s2 hstep] at hs3
        exact ⟨s3, hs3⟩
      have hres := ih s2 res hes hpre2 hret
      cases e with
      | timerFired =>
        rw [hres, step_timer_last_error s s2 hstep, lastObserved]
        rw [show extractObserved (SpecEvent.timerFired : SpecEvent ResT) = none
          from rfl]
        rw [orOpt_none]
      | taskCompleted o =>
        cases o with
        | none =>
          rw [step_task_none s] at hstep
          have hle : s2.last_error = s.last_error := by
            rw [finishCheck_running_inv _ _ hstep]
          rw [hres, hle, lastObserved]
          rw [show extractObserved
            (SpecEvent.taskCompleted (none : Option (AttemptResult ResT)))
              = none from rfl]
          rw [orOpt_none]
        | some r0 =>
          have hr0 : can_be_ignored r0 = true := he
          rw [step_task_some_ign s r0 hr0] at hstep
          have hle : s2.last_error = some r0 := by
            rw [finishCheck_running_inv _ _ hstep]
          rw [hres, hle, lastObserved]
          rw [show extractObserved (SpecEvent.taskCompleted (some r0))
            = some r0 from rfl]
          rw [orOpt_some_absorb]

/-- C3: if every completed attempt in a terminating run of the wait loop
produced no terminal result or an ignorable error, the loop returns the
last ignorable error observed (not any earlier one); if no error was ever
recorded, it returns the static empty-plan error. -/
theorem claim_C3 (ResT : Type) (max_retry_count retry_interval : Nat)
    (events : List (SpecEvent ResT)) (res : AttemptResult ResT)
    (hign : allIgnorable events = true)
    (hpre : ∀ n, n < events.length →
      ∃ s2, runEvents (initState ResT max_retry_count retry_interval)
        (events.take n) = .running s2)
    (hret : runEvents (initState ResT max_retry_count retry_interval) events
      = .returned res) :
    res = (lastObserved events).getD (.error EMPTY_PLAN_ERROR) := by
  have h := runEvents_all_ignorable events
    (initState ResT max_retry_count retry_interval) res hign hpre hret
  rw [show (initState ResT max_retry_count retry_interval).last_error = none
    from rfl, orOpt_none] at h
  exact h

theorem claim_C3_witness :
    runEvents (initState Unit 1 5)
        [SpecEvent.taskCompleted (some (.error RequestError.ConnectionPoolError)),
         SpecEvent.timerFired,
         SpecEvent.taskCompleted (some (.error (RequestError.LastAttemptError
           RequestAttemptError.UnableToAllocStreamId)))]
      = .returned (.error (RequestError.LastAttemptError
          RequestAttemptError.UnableToAllocStreamId)) ∧
    (Except.error (RequestError.LastAttemptError
        RequestAttemptError.UnableToAllocStreamId) : AttemptResult Unit)
      = (lastObserved
          [SpecEvent.taskCompleted (some (.error RequestError.ConnectionPoolError)),
           SpecEvent.timerFired,
           SpecEvent.taskCompleted (some (.error (RequestError.LastAttemptError
             RequestAttemptError.UnableToAllocStreamId)))]).getD
          (.error EMPTY_PLAN_ERROR) :=
  ⟨rfl,
    claim_C3 Unit 1 5
      [SpecEvent.taskCompleted (some (.error RequestError.ConnectionPoolError)),
       SpecEvent.timerFired,
       SpecEvent.taskCompleted (some (.error (RequestError.LastAttemptError
         RequestAttemptError.UnableToAllocStreamId)))]
      (.error (RequestError.LastAttemptError
        RequestAttemptError.UnableToAllocStreamId))
      (by decide)
      (by
        intro n hn
        have hn3 : n < 3 := by simpa using hn
        match n, hn3 with
        | 0, _ => exact ⟨_, rfl⟩
        | 1, _ => exact ⟨_, rfl⟩
        | 2, _ => exact ⟨_, rfl⟩
        | n + 3, h3 => exact absurd h3 (by omega))
      rfl⟩

/-! ## Launch bookkeeping -/

theorem step_task_some_nonign {ResT : Type} (s : SchedState ResT)
    (r : AttemptResult ResT) (h : can_be_ignored r = false) :
    step s (.taskCompleted (some r)) = .returned r := by
  unfold step
  simp [h]

theorem calls_inv_step {ResT : Type} (max : Nat) (s s2 : SchedState ResT)
    (e : SpecEvent ResT)
    (hinv : s.retries_remaining ≤ max ∧
      s.calls = false :: List.replicate (max - s.retries_remaining) true)
    (hstep : step s e = .running s2) :
    s2.retries_remaining ≤ max ∧
    s2.calls = false :: List.replicate (max - s2.retries_remaining) true := by
  obtain ⟨h1, h2⟩ := hinv
  cases e with
  | timerFired =>
    by_cases hr : 0 < s.retries_remaining
    · rw [step_timer_pos s hr] at hstep
      cases hstep
      refine ⟨?_, ?_⟩
      · show s.retries_remaining - 1 ≤ max
        omega
      show s.calls ++ [true]
        = false :: List.replicate (max - (s.retries_remaining - 1)) true
      rw [h2, show max - (s.retries_remaining - 1)
            = (max - s.retries_remaining) + 1 by omega,
          List.replicate_succ']
      rfl
    · rw [step_timer_zero s (by omega)] at hstep
      cases hstep
      exact ⟨h1, h2⟩
  | taskCompleted o =>
    cases o with
    | none =>
      rw [step_task_none s] at hstep
      rw [finishCheck_running_inv _ _ hstep]
      exact ⟨h1, h2⟩
    | some r0 =>
      by_cases hig : can_be_ignored r0 = true
      · rw [step_task_some_ign s r0 hig] at hstep
        rw [finishCheck_running_inv _ _ hstep]
        exact ⟨h1, h2⟩
      · have hni : can_be_ignored r0 = false := by
          cases hcb : can_be_ignored r0
          · rfl
          · exact absurd hcb hig
        rw [step_task_some_nonign s r0 hni] at hstep
        exact StepOut.noConfusion hstep

theorem runEvents_calls_inv {ResT : Type} (max : Nat) :
    ∀ (events : List (SpecEvent ResT)) (s0 s : SchedState ResT),
    (s0.retries_remaining ≤ max ∧
      s0.calls = false :: List.replicate (max - s0.retries_remaining) true) →
    runEvents s0 events = .running s →
    s.retries_remaining ≤ max ∧
    s.calls = false :: List.replicate (max - s.retries_remaining) true := by
  intro events
  induction events with
  | nil =>
    intro s0 s hinv hrun
    cases hrun
    exact hinv
  | cons e es ih =>
    intro s0 s hinv hrun
    cases hstep : step s0 e with
    | returned r =>
      rw [runEvents_cons_returned s0 e es r hstep] at hrun
      exact StepOut.noConfusion hrun
    | running s1 =>
      rw [runEvents_cons_running s0 e es s1 hstep] at hrun
      exact ih s1 s (calls_inv_step max s0 s1 e hinv hstep) hrun

theorem count_true_calls (k : Nat) :
    (false :: List.replicate k true).count true = k := by
  induction k with
  | zero => rfl
  | succ n ih =>
    rw [List.replicate_succ']
    rw [show (false :: (List.replicate n true ++ [true]))
        = (false :: List.replicate n true) ++ [true] from rfl]
    rw [List.count_append, ih]
    rfl

/-- C9: a timer firing while the retry countdown is positive launches
exactly one speculative attempt (`generator(true)`, one `true` appended to
the call record), decrements the countdown and rearms the timer with the
same interval; a timer firing with zero retries remaining changes nothing
except that the timer is not rearmed; and along every run from the loop's
initial state the call record is `generator(false)` followed by one
`generator(true)` per consumed retry — so `generator(true)` is invoked at
most `max_retry_count` times and never before `generator(false)`. -/
theorem claim_C9 (ResT : Type) (max_retry_count retry_interval : Nat)
    (s1 s2 s3 : SchedState ResT) (events : List (SpecEvent ResT))
    (h1 : 0 < s1.retries_remaining)
    (h2 : s2.retries_remaining = 0)
    (h3 : runEvents (initState ResT max_retry_count retry_interval) events
      = .running s3) :
    step s1 .timerFired = .running { s1 with
      liveTasks := s1.liveTasks + 1,
      retries_remaining := s1.retries_remaining - 1,
      sleep := some s1.retry_interval,
      calls := s1.calls ++ [true] } ∧
    step s2 .timerFired = .running { s2 with sleep := none } ∧
    s3.calls = false
      :: List.replicate (max_retry_count - s3.retries_remaining) true ∧
    s3.calls.count true = max_retry_count - s3.retries_remaining ∧
    s3.calls.count true ≤ max_retry_count := by
  have hinv := runEvents_calls_inv max_retry_count events
    (initState ResT max_retry_count retry_interval) s3
    ⟨le_refl _, by simp [initState, Nat.sub_self]⟩ h3
  refine ⟨step_timer_pos s1 h1, step_timer_zero s2 h2, hinv.2, ?_, ?_⟩
  · rw [hinv.2, count_true_calls]
  · rw [hinv.2, count_true_calls]
    omega

theorem claim_C9_witness :
    step (initState Unit 2 7) SpecEvent.timerFired
      = .running ⟨7, 1, 2, some 7, none, [false, true]⟩ ∧
    step (initState Unit 0 7) SpecEvent.timerFired
      = .running ⟨7, 0, 1, none, none, [false]⟩ ∧
    (⟨7, 1, 2, some 7, none, [false, true]⟩ : SchedState Unit).calls
      = false :: List.replicate (2 - 1) true ∧
    (⟨7, 1, 2, some 7, none, [false, true]⟩ : SchedState Unit).calls.count true
      = 2 - 1 ∧
    (⟨7, 1, 2, some 7, none, [false, true]⟩ : SchedState Unit).calls.count true
      ≤ 2 :=
  claim_C9 Unit 2 7 (initState Unit 2 7) (initState Unit 0 7)
    ⟨7, 1, 2, some 7, none, [false, true]⟩ [SpecEvent.timerFired]
    (by decide) rfl rfl

/-! ## Termination measure -/

theorem finishCheck_cases {ResT : Type} (s : SchedState ResT) :
    finishCheck s = .returned (s.last_error.getD (.error EMPTY_PLAN_ERROR)) ∨
    finishCheck s = .running s := by
  unfold finishCheck
  by_cases hc : s.liveTasks = 0 ∧ s.retries_remaining = 0
  · left
    rw [if_pos hc]
  · right
    rw [if_neg hc]

theorem loopMeasure_step {ResT : Type} (s : SchedState ResT)
    (e : SpecEvent ResT) (hv : validEvent s e = true) :
    (∃ r, step s e = .returned r) ∨
    (∃ s2, step s e = .running s2 ∧ loopMeasure s2 < loopMeasure s) := by
  cases e with
  | timerFired =>
    have hsleep : s.sleep.isSome = true := hv
    by_cases hr : 0 < s.retries_remaining
    · right
      refine ⟨_, step_timer_pos s hr, ?_⟩
      simp [loopMeasure, hsleep]
      omega
    · right
      refine ⟨_, step_timer_zero s (by omega), ?_⟩
      simp [loopMeasure, hsleep]
  | taskCompleted o =>
    have hl : 0 < s.liveTasks := by simpa [validEvent] using hv
    cases o with
    | none =>
      rw [step_task_none s]
      rcases finishCheck_cases
        ({ s with liveTasks := s.liveTasks - 1 } : SchedState ResT) with h | h
      · exact Or.inl ⟨_, h⟩
      · refine Or.inr ⟨_, h, ?_⟩
        show loopMeasure { s with liveTasks := s.liveTasks - 1 } < loopMeasure s
        simp only [loopMeasure]
        omega
    | some r0 =>
      by_cases hig : can_be_ignored r0 = true
      · rw [step_task_some_ign s r0 hig]
        rcases finishCheck_cases
          ({ s with liveTasks := s.liveTasks - 1, last_error := some r0 }
            : SchedState ResT) with h | h
        · exact Or.inl ⟨_, h⟩
        · refine Or.inr ⟨_, h, ?_⟩
          show loopMeasure
            { s with liveTasks := s.liveTasks - 1, last_error := some r0 }
              < loopMeasure s
          simp only [loopMeasure]
          omega
      · have hni : can_be_ignored r0 = false := by
          cases hcb : can_be_ignored r0
          · rfl
          · exact absurd hcb hig
        exact Or.inl ⟨r0, step_task_some_nonign s r0 hni⟩

theorem validRun_length_le {ResT : Type} :
    ∀ (events : List (SpecEvent ResT)) (s : SchedState ResT),
    validRun s events = true →
    ∀ s3, runEvents s events = .running s3 →
    events.length ≤ loopMeasure s := by
  intro events
  induction events with
  | nil =>
    intro s _ s3 _
    simp
  | cons e es ih =>
    intro s hv s3 hrun
    rw [validRun, Bool.and_eq_true] at hv
    obtain ⟨hve, hrest⟩ := hv
    cases hstep : step s e with
    | returned r =>
      rw [runEvents_cons_returned s e es r hstep] at hrun
      exact StepOut.noConfusion hrun
    | running s2 =>
      rw [runEvents_cons_running s e es s2 hstep] at hrun
      have hrest2 : validRun s2 es = true := by
        rw [hstep] at hrest
        exact hrest
      have hdec : loopMeasure s2 < loopMeasure s := by
        rcases loopMeasure_step s e hve with ⟨r, hr⟩ | ⟨s2b, hs2b, hlt⟩
        · rw [hstep] at hr
          exact StepOut.noConfusion hr
        · rw [hstep] at hs2b
          cases hs2b
          exact hlt
      have hlen := ih s2 hrest2 s3 hrun
      simp only [List.length_cons]
      omega

/-- C8 fails as stated: a timer firing with retries remaining neither
returns nor reduces (live tasks + remaining retries) — it adds one
in-flight task and consumes one retry, leaving the claimed measure
unchanged at its previous value. -/
theorem claim_C8_counterexample :
    step (initState Unit 1 5) SpecEvent.timerFired
      = .running ⟨5, 0, 2, some 5, none, [false, true]⟩ ∧
    claimedMeasure (⟨5, 0, 2, some 5, none, [false, true]⟩ : SchedState Unit)
      = claimedMeasure (initState Unit 1 5) ∧
    claimedMeasure (initState Unit 1 5) = 2 :=
  ⟨rfl, rfl, rfl⟩

/-- C8 (amended): the wait loop cannot run forever. Every event possible
in a state either makes the iteration return or strictly decreases the
measure live tasks + 2 · remaining retries + (1 if the timer is armed);
consequently a possible event sequence after which the loop is still
running is no longer than the starting state's measure, so, provided every
generated attempt future and timer eventually completes (events keep
arriving), `execute` always returns. -/
theorem claim_C8_amended (ResT : Type) (s : SchedState ResT)
    (e : SpecEvent ResT) (events : List (SpecEvent ResT))
    (s3 : SchedState ResT)
    (hv : validEvent s e = true)
    (hrun : validRun s events = true)
    (hstill : runEvents s events = .running s3) :
    ((∃ r, step s e = .returned r) ∨
     (∃ s2, step s e = .running s2 ∧ loopMeasure s2 < loopMeasure s)) ∧
    events.length ≤ loopMeasure s :=
  ⟨loopMeasure_step s e hv, validRun_length_le events s hrun s3 hstill⟩

theorem claim_C8_amended_witness :
    ((∃ r, step (initState Unit 1 5) (SpecEvent.taskCompleted none)
        = .returned r) ∨
     (∃ s2, step (initState Unit 1 5) (SpecEvent.taskCompleted none)
        = .running s2 ∧ loopMeasure s2 < loopMeasure (initState Unit 1 5))) ∧
    ([SpecEvent.timerFired] : List (SpecEvent Unit)).length
      ≤ loopMeasure (initState Unit 1 5) :=
  claim_C8_amended Unit (initState Unit 1 5) (SpecEvent.taskCompleted none)
    [SpecEvent.timerFired] ⟨5, 0, 2, some 5, none, [false, true]⟩
    (by decide) (by decide) rfl

end Scylla
